import Mathlib

/-!
Verification development for the NRWAL declarative equation-evaluation
library (NREL/NRWAL).

The repository ships its engine (expression parser, `Equation`,
`EquationGroup`, interpolation engine, `NrwalConfig`) as Python code that is
not included under `src/`; only the bundled equation-library data files, the
example notebook and the test fixtures are present.  The engine is therefore
modelled here from the specification (each such definition carries a doc
comment starting `Modelled from the spec:`), while all concrete data
(equation strings, configuration keys, member signatures) is transcribed
from the source files under `src/`.

Numeric values are modelled as rationals (`ℚ`); the scalar arithmetic
fragment of the expression language is embedded as an inductive `Expr`.
-/

set_option maxRecDepth 40000

deriving instance DecidableEq for Except

namespace NRWAL

/-- An input namespace: a flat association of variable names to scalar
values (spec §3 "input namespace", name → scalar). -/
abbrev Env := List (String × ℚ)

/-- Modelled from the spec: the algebraic expression grammar of the
equation-definition mini-language (§4.1): numeric literals, named
identifiers, the binary operators `+ - * / **` and unary `-`.  The
`np.<function>` call forms, which act on arrays, are modelled separately
(`NpExpr` below) because the scalar evaluation claims only exercise the
arithmetic fragment. -/
inductive Expr where
  | num : ℚ → Expr
  | var : String → Expr
  | add : Expr → Expr → Expr
  | sub : Expr → Expr → Expr
  | mul : Expr → Expr → Expr
  | div : Expr → Expr → Expr
  | pow : Expr → Expr → Expr
  | neg : Expr → Expr
deriving DecidableEq

/-- Free identifiers of an expression, in syntactic order, with
multiplicity (spec §4.1: every identifier that is not a numeric literal and
not a recognized numeric-function token). -/
def Expr.vars : Expr → List String
  | .num _ => []
  | .var v => [v]
  | .add a b => a.vars ++ b.vars
  | .sub a b => a.vars ++ b.vars
  | .mul a b => a.vars ++ b.vars
  | .div a b => a.vars ++ b.vars
  | .pow a b => a.vars ++ b.vars
  | .neg a => a.vars

/-- Rational model of the `**` operator: exact for integer exponents, which
is the only use of `**` that stays inside ℚ. -/
def qpow (a b : ℚ) : ℚ := if b.den = 1 then a ^ b.num else 0

/-- Elementwise scalar evaluation of an expression under a total variable
assignment (spec §4.2: evaluate the parsed expression tree). -/
def Expr.evalQ (env : String → ℚ) : Expr → ℚ
  | .num q => q
  | .var v => env v
  | .add a b => a.evalQ env + b.evalQ env
  | .sub a b => a.evalQ env - b.evalQ env
  | .mul a b => a.evalQ env * b.evalQ env
  | .div a b => a.evalQ env / b.evalQ env
  | .pow a b => qpow (a.evalQ env) (b.evalQ env)
  | .neg a => - a.evalQ env

/-- Modelled from the spec: the error kinds surfaced by the engine (§7);
only the kinds exercised by the claims are carried. -/
inductive EngineError where
  | missingInput : List String → EngineError
  | outOfRange : ℚ → ℚ → ℚ → EngineError
  | unresolvedReference : String → EngineError
  | noKnots : EngineError
deriving DecidableEq

/-- Byte-wise lexicographic comparison on strings (the sort order of
`required_inputs` and `variables`; all names involved are ASCII). -/
def charListLe : List Char → List Char → Bool
  | [], _ => true
  | _ :: _, [] => false
  | a :: as, b :: bs =>
    if a.val.toNat < b.val.toNat then true
    else if b.val.toNat < a.val.toNat then false
    else charListLe as bs

/-- String comparison used for sorting name lists. -/
def strLe (a b : String) : Bool := charListLe a.toList b.toList

/-- Insert a string into a sorted list of strings. -/
def insertStr (s : String) : List String → List String
  | [] => [s]
  | t :: ts => if strLe s t then s :: t :: ts else t :: insertStr s ts

/-- Insertion sort of a list of names. -/
def sortStrings : List String → List String
  | [] => []
  | s :: ss => insertStr s (sortStrings ss)

/-- Modelled from the spec: the `Equation` entity (§3, §4.2): a parsed
expression, a default-variable table, and an optional cached output
(absent until evaluated). -/
structure Equation where
  expr : Expr
  default_variables : List (String × ℚ)
  output : Option ℚ := none
deriving DecidableEq

namespace Equation

/-- Sorted list of required-variable names: free identifiers with no entry
in the default-variable table (spec §4.2 `variables`; Lean reserves the
name `variables`, hence `requiredVariables`). -/
def requiredVariables (e : Equation) : List String :=
  sortStrings ((e.expr.vars.dedup).filter
    (fun v => (e.default_variables.lookup v).isNone))

/-- Resolve one variable against the merged namespace, in priority order:
caller-supplied values override the equation's default-variable table
(spec §4.2). -/
def resolveVar (e : Equation) (x : Env) (v : String) : Option ℚ :=
  match x.lookup v with
  | some q => some q
  | none => e.default_variables.lookup v

/-- Total evaluation environment induced by the merged namespace. -/
def env (e : Equation) (x : Env) (v : String) : ℚ := (e.resolveVar x v).getD 0

/-- The (sorted) list of every free identifier that remains unresolved in
the merged namespace — the variables a MissingInput error must name
(spec §4.2, §7). -/
def missingVars (e : Equation) (x : Env) : List String :=
  (sortStrings e.expr.vars.dedup).filter
    (fun v => (e.resolveVar x v).isNone)

/-- Modelled from the spec: `evaluate` (§4.2) — merge caller inputs over the
default-variable table, fail with a MissingInput error naming every missing
variable if any required variable is unresolved, else evaluate the
expression tree. -/
def evaluate (e : Equation) (x : Env) : Except EngineError ℚ :=
  match e.missingVars x with
  | [] => .ok (e.expr.evalQ (e.env x))
  | ms => .error (.missingInput ms)

/-- Modelled from the spec: evaluation with the memoization cell — on
success the numeric result is cached in `output`; a failed call produces no
cached output (§4.2 caching, §7). -/
def evaluateS (e : Equation) (x : Env) : Except EngineError ℚ × Equation :=
  match e.evaluate x with
  | .ok q => (.ok q, { e with output := some q })
  | .error err => (.error err, e)

/-- Modelled from the spec: `reset()` clears the cache (§4.2). -/
def reset (e : Equation) : Equation := { e with output := none }

/-- Modelled from the spec: binary composition of Equations (§4.2) — the
composite expression is the textual/structural combination of the operands
and the composite default-variable table is the union of the operands'
tables (the first operand's entry is kept on a name collision; the spec
calls a collision with differing values a configuration error). -/
def compose (f : Expr → Expr → Expr) (a b : Equation) : Equation :=
  { expr := f a.expr b.expr
    default_variables := a.default_variables ++ b.default_variables
    output := none }

/-- `A + B` on Equations. -/
def addE (a b : Equation) : Equation := compose .add a b

/-- `A - B` on Equations. -/
def subE (a b : Equation) : Equation := compose .sub a b

/-- `A * B` on Equations. -/
def mulE (a b : Equation) : Equation := compose .mul a b

/-- `A / B` on Equations. -/
def divE (a b : Equation) : Equation := compose .div a b

/-- Unary `-A` on Equations. -/
def negE (a : Equation) : Equation :=
  { expr := .neg a.expr, default_variables := a.default_variables, output := none }

end Equation

/-! ## Interpolation/Extrapolation engine (spec §4.5)

A knot set is the ordered ascending sequence of (numeric token, member)
pairs for one size- or year-keyed equation family. -/

/-- Result of resolving a family reference: either a defined member
returned unchanged (exact knot match) or an interpolated/extrapolated
numeric value. -/
inductive Resolved where
  | member : Equation → Resolved
  | value : ℚ → Resolved
deriving DecidableEq

/-- The linear interpolation/extrapolation formula of spec §4.5:
`v_lo + (v_hi - v_lo) * (r - k_lo) / (k_hi - k_lo)`. -/
def interpValue (kLo vLo kHi vHi r : ℚ) : ℚ :=
  vLo + (vHi - vLo) * (r - kLo) / (kHi - kLo)

/-- Evaluate two knot members against the active input namespace and
combine their results with the linear formula. -/
def interpTwo (lo hi : ℚ × Equation) (r : ℚ) (x : Env) :
    Except EngineError ℚ :=
  match lo.2.evaluate x, hi.2.evaluate x with
  | .ok vLo, .ok vHi => .ok (interpValue lo.1 vLo hi.1 vHi r)
  | .error e, _ => .error e
  | .ok _, .error e => .error e

/-- First knot of a knot set (the minimum, since knots are ordered
ascending). -/
def firstKnot : List (ℚ × Equation) → Option (ℚ × Equation)
  | [] => none
  | k :: _ => some k

/-- Last knot of a knot set (the maximum). -/
def lastKnot : List (ℚ × Equation) → Option (ℚ × Equation)
  | [] => none
  | [k] => some k
  | _ :: k :: rest => lastKnot (k :: rest)

/-- The last two knots of a knot set (the nearest two knots when the
requested value lies above the range). -/
def lastTwo : List (ℚ × Equation) → Option ((ℚ × Equation) × (ℚ × Equation))
  | [a, b] => some (a, b)
  | _ :: b :: rest => lastTwo (b :: rest)
  | _ => none

/-- Adjacent bracketing pair `(k_lo, k_hi)` with `k_lo < r < k_hi` in an
ascending knot set. -/
def findBracket : List (ℚ × Equation) → ℚ → Option ((ℚ × Equation) × (ℚ × Equation))
  | a :: b :: rest, r =>
    if a.1 < r ∧ r < b.1 then some (a, b) else findBracket (b :: rest) r
  | _, _ => none

/-- Extrapolation below the knot range: the nearest two knots are the first
two. -/
def extrapBelow (knots : List (ℚ × Equation)) (r : ℚ) (x : Env) :
    Except EngineError Resolved :=
  match knots with
  | k0 :: k1 :: _ => (interpTwo k0 k1 r x).map .value
  | _ => .error .noKnots

/-- Extrapolation above the knot range: the nearest two knots are the last
two. -/
def extrapAbove (knots : List (ℚ × Equation)) (r : ℚ) (x : Env) :
    Except EngineError Resolved :=
  match lastTwo knots with
  | some (m0, m1) => (interpTwo m0 m1 r x).map .value
  | none => .error .noKnots

/-- Modelled from the spec: resolution of an equation-family reference
(§4.5).  Exact token match returns that member unchanged; a token strictly
inside the knot range linearly interpolates between the bracketing knots; a
token outside the range extrapolates from the nearest two knots when the
extrapolation flag is enabled and otherwise fails with an out-of-range
error naming the requested value and the available knot range. -/
def resolveFamily (knots : List (ℚ × Equation)) (r : ℚ) (extrap : Bool)
    (x : Env) : Except EngineError Resolved :=
  match knots.find? (fun k => decide (k.1 = r)) with
  | some k => .ok (.member k.2)
  | none =>
    match firstKnot knots, lastKnot knots with
    | some kmin, some kmax =>
      if kmin.1 < r ∧ r < kmax.1 then
        match findBracket knots r with
        | some (lo, hi) => (interpTwo lo hi r x).map .value
        | none => .error .noKnots
      else if extrap then
        if r < kmin.1 then extrapBelow knots r x else extrapAbove knots r x
      else .error (.outOfRange r kmin.1 kmax.1)
    | _, _ => .error .noKnots

/-- A size-keyed family (power rating in MW) or a year-keyed family
(cost-reduction target year). -/
inductive FamilyKind where
  | power : FamilyKind
  | year : FamilyKind
deriving DecidableEq

/-- The configuration flag governing extrapolation for a family:
`interp_extrap_power` for size-keyed families, `interp_extrap_year` for
year-keyed families (spec §4.5, §6). -/
def flagFor (kind : FamilyKind) (interp_extrap_power interp_extrap_year : Bool) : Bool :=
  match kind with
  | .power => interp_extrap_power
  | .year => interp_extrap_year

/-- Family resolution as invoked from a configuration holding the two
interpolation flags. -/
def resolveFamilyRef (kind : FamilyKind) (interp_extrap_power interp_extrap_year : Bool)
    (knots : List (ℚ × Equation)) (r : ℚ) (x : Env) : Except EngineError Resolved :=
  resolveFamily knots r (flagFor kind interp_extrap_power interp_extrap_year) x

/-! ## NrwalConfig orchestrator state (spec §4.6)

Members are modelled post-resolution: each top-level member is an
`Equation` already closed over its leaf input variables, exactly as the
example notebook displays them. -/

/-- Modelled from the spec: the orchestrator's mutable state — the resolved
flat namespace of top-level members and the caller-assigned input
namespace (§3, §4.6). -/
structure NrwalConfig where
  members : List (String × Equation)
  inputs : Env
deriving DecidableEq

/-- Modelled from the spec: what a bracket read returns — the member's
cached result if evaluated, else the live Equation object (§4.6). -/
inductive MemberView where
  | value : ℚ → MemberView
  | eqn : Equation → MemberView
deriving DecidableEq

namespace NrwalConfig

/-- Evaluate one member against the config's input namespace, skipping
recomputation when a cached output is already present (spec §4.6). -/
def computeMember (e : Equation) (x : Env) : Equation :=
  match e.output with
  | some _ => e
  | none => (e.evaluateS x).2

/-- Modelled from the spec: `evaluate()` computes every top-level member
against the current inputs, mutating cached outputs in place (§4.6). -/
def evaluate (c : NrwalConfig) : NrwalConfig :=
  { c with members := c.members.map (fun m => (m.1, computeMember m.2 c.inputs)) }

/-- The flat name → cached-result mapping exposed after evaluation. -/
def outputs (c : NrwalConfig) : List (String × Option ℚ) :=
  c.members.map (fun m => (m.1, m.2.output))

/-- Bracket read access: the cached result if the member has been
evaluated, else the live Equation object (spec §4.6, §8.5). -/
def bracket (c : NrwalConfig) (name : String) : Option MemberView :=
  (c.members.lookup name).map
    (fun e => match e.output with
      | some q => .value q
      | none => .eqn e)

/-- Modelled from the spec: `reset_output()` clears every cached result
reachable from the config (§4.6). -/
def reset_output (c : NrwalConfig) : NrwalConfig :=
  { c with members := c.members.map (fun m => (m.1, m.2.reset)) }

/-- Replace the whole input namespace (spec §4.6: setting `inputs`
replaces the namespace). -/
def setInputs (c : NrwalConfig) (x : Env) : NrwalConfig := { c with inputs := x }

end NrwalConfig

/-! ## The monopile 15MW 2028 default configuration (data)

Transcribed from `src/examples/example.ipynb`: the printed representation
of `NrwalConfig('./example_config_monopile_15MW_2028.yaml')` lists every
top-level member with its short-hand call signature
`name(required_vars, default_var=default_value, …)`.  `ConfigMember`
records, for each member, the required-variable names (no default) and the
default-variable names of that signature; constants and the
`cost_reductions` group have neither. -/

structure ConfigMember where
  name : String
  reqVars : List String
  defVars : List String
deriving DecidableEq

/-- Every top-level member of the monopile/2028 default configuration, in
file order, with the required and default variable names shown by the
example notebook's config display. -/
def monopile15MW2028Members : List ConfigMember :=
  [ ⟨"fixed_charge_rate", [], []⟩
  , ⟨"development_factor", [], []⟩
  , ⟨"proj_mgmt_factor", [], []⟩
  , ⟨"construction_insurance", [], []⟩
  , ⟨"project_completion", [], []⟩
  , ⟨"decomissioning", [], []⟩
  , ⟨"procurement_contingency", [], []⟩
  , ⟨"install_contingency", [], []⟩
  , ⟨"lease_price", [], []⟩
  , ⟨"confin_factor", [], []⟩
  , ⟨"interest_during_construction", [], []⟩
  , ⟨"tax_rate", [], []⟩
  , ⟨"cost_reductions", [], []⟩
  , ⟨"turbine", ["num_turbines", "turbine_capacity"], []⟩
  , ⟨"turbine_install",
     ["depth", "dist_p_to_s", "fixed_downtime", "num_turbines", "turbine_capacity"], []⟩
  , ⟨"substructure", ["depth", "num_turbines"],
     ["monopile_tp_cost", "outfitting_cost"]⟩
  , ⟨"foundation", ["depth", "num_turbines"], ["pile_cost"]⟩
  , ⟨"sub_install",
     ["depth", "dist_p_to_s", "fixed_downtime", "num_turbines", "turbine_capacity"], []⟩
  , ⟨"pslt", ["depth", "dist_p_to_s", "num_turbines"], ["port_cost"]⟩
  , ⟨"array", ["depth", "num_turbines"], []⟩
  , ⟨"export", ["dist_s_to_l"], []⟩
  , ⟨"grid",
     ["dist_l_to_ts", "num_turbines", "transmission_multi", "turbine_capacity"],
     ["transmission_cost"]⟩
  , ⟨"support", ["depth", "num_turbines"],
     ["monopile_tp_cost", "outfitting_cost", "pile_cost"]⟩
  , ⟨"install",
     ["depth", "dist_p_to_s", "fixed_downtime", "num_turbines", "turbine_capacity"],
     ["port_cost"]⟩
  , ⟨"electrical",
     ["depth", "dist_l_to_ts", "dist_s_to_l", "num_turbines", "transmission_multi",
      "turbine_capacity"], ["transmission_cost"]⟩
  , ⟨"subcomponents",
     ["depth", "dist_l_to_ts", "dist_p_to_s", "dist_s_to_l", "fixed_downtime",
      "num_turbines", "transmission_multi", "turbine_capacity"],
     ["monopile_tp_cost", "outfitting_cost", "pile_cost", "port_cost", "transmission_cost"]⟩
  , ⟨"development",
     ["depth", "dist_l_to_ts", "dist_p_to_s", "dist_s_to_l", "fixed_downtime",
      "num_turbines", "transmission_multi", "turbine_capacity"],
     ["monopile_tp_cost", "outfitting_cost", "pile_cost", "port_cost", "transmission_cost"]⟩
  , ⟨"proj_mgmt",
     ["depth", "dist_l_to_ts", "dist_p_to_s", "dist_s_to_l", "fixed_downtime",
      "num_turbines", "transmission_multi", "turbine_capacity"],
     ["monopile_tp_cost", "outfitting_cost", "pile_cost", "port_cost", "transmission_cost"]⟩
  , ⟨"bos",
     ["depth", "dist_l_to_ts", "dist_p_to_s", "dist_s_to_l", "fixed_downtime",
      "num_turbines", "transmission_multi", "turbine_capacity"],
     ["monopile_tp_cost", "outfitting_cost", "pile_cost", "port_cost", "transmission_cost"]⟩
  , ⟨"constr_ins",
     ["depth", "dist_l_to_ts", "dist_p_to_s", "dist_s_to_l", "fixed_downtime",
      "num_turbines", "transmission_multi", "turbine_capacity"],
     ["monopile_tp_cost", "outfitting_cost", "pile_cost", "port_cost", "transmission_cost"]⟩
  , ⟨"decomm",
     ["depth", "dist_p_to_s", "fixed_downtime", "num_turbines", "turbine_capacity"],
     ["port_cost"]⟩
  , ⟨"proj_comp",
     ["depth", "dist_l_to_ts", "dist_p_to_s", "dist_s_to_l", "fixed_downtime",
      "num_turbines", "transmission_multi", "turbine_capacity"],
     ["monopile_tp_cost", "outfitting_cost", "pile_cost", "port_cost", "transmission_cost"]⟩
  , ⟨"procurement_cont",
     ["depth", "dist_l_to_ts", "dist_p_to_s", "dist_s_to_l", "fixed_downtime",
      "num_turbines", "transmission_multi", "turbine_capacity"],
     ["monopile_tp_cost", "outfitting_cost", "pile_cost", "port_cost", "transmission_cost"]⟩
  , ⟨"install_cont",
     ["depth", "dist_p_to_s", "fixed_downtime", "num_turbines", "turbine_capacity"],
     ["port_cost"]⟩
  , ⟨"cons_financing",
     ["depth", "dist_l_to_ts", "dist_p_to_s", "dist_s_to_l", "fixed_downtime",
      "num_turbines", "transmission_multi", "turbine_capacity"],
     ["monopile_tp_cost", "outfitting_cost", "pile_cost", "port_cost", "transmission_cost"]⟩
  , ⟨"soft",
     ["depth", "dist_l_to_ts", "dist_p_to_s", "dist_s_to_l", "fixed_downtime",
      "num_turbines", "transmission_multi", "turbine_capacity"],
     ["monopile_tp_cost", "outfitting_cost", "pile_cost", "port_cost", "transmission_cost"]⟩
  , ⟨"_capex",
     ["capex_multi", "depth", "dist_l_to_ts", "dist_p_to_s", "dist_s_to_l",
      "fixed_downtime", "num_turbines", "transmission_multi", "turbine_capacity"],
     ["monopile_tp_cost", "outfitting_cost", "pile_cost", "port_cost", "transmission_cost"]⟩
  , ⟨"capex",
     ["capex_multi", "depth", "dist_l_to_ts", "dist_p_to_s", "dist_s_to_l",
      "fixed_downtime", "num_turbines", "transmission_multi", "turbine_capacity"],
     ["monopile_tp_cost", "outfitting_cost", "pile_cost", "port_cost", "transmission_cost"]⟩
  , ⟨"operations", [], []⟩
  , ⟨"maintenance", ["dist_op_to_s", "hs_average", "num_turbines"], []⟩
  , ⟨"opex", ["dist_op_to_s", "hs_average", "num_turbines"], []⟩
  , ⟨"adjusted_gcf", ["gcf", "turbine_capacity"], []⟩
  , ⟨"wake", ["aeff"], ["array_efficiency_adj"]⟩
  , ⟨"elec", ["depth", "dist_s_to_l"], []⟩
  , ⟨"avail", ["dist_op_to_s", "hs_average"], ["avail_adj"]⟩
  , ⟨"environmental", [], []⟩
  , ⟨"technical", [], []⟩
  , ⟨"site_specific",
     ["aeff", "depth", "dist_op_to_s", "dist_s_to_l", "hs_average"],
     ["array_efficiency_adj", "avail_adj"]⟩
  , ⟨"total_losses",
     ["aeff", "depth", "dist_op_to_s", "dist_s_to_l", "hs_average"],
     ["array_efficiency_adj", "avail_adj"]⟩
  , ⟨"ncf",
     ["aeff", "depth", "dist_op_to_s", "dist_s_to_l", "gcf", "hs_average",
      "turbine_capacity"], ["array_efficiency_adj", "avail_adj"]⟩
  , ⟨"lcoe",
     ["aeff", "capex_multi", "depth", "dist_l_to_ts", "dist_op_to_s", "dist_p_to_s",
      "dist_s_to_l", "fixed_downtime", "gcf", "hs_average", "num_turbines",
      "transmission_multi", "turbine_capacity"],
     ["array_efficiency_adj", "avail_adj", "monopile_tp_cost", "outfitting_cost",
      "pile_cost", "port_cost", "transmission_cost"]⟩ ]

/-- Concatenation of the members' required-variable lists. -/
def allReqVars : List ConfigMember → List String
  | [] => []
  | m :: ms => m.reqVars ++ allReqVars ms

/-- Modelled from the spec: `required_inputs` (§4.6) — the sorted union,
across every top-level member's dependency closure, of variable names with
no default that are not themselves produced by another top-level member. -/
def requiredInputsOf (members : List ConfigMember) : List String :=
  sortStrings (((allReqVars members).filter
      (fun v => ! members.any (fun m => m.name == v))).dedup)

/-! ## Expression-string scanning (spec §4.1)

The engine works on raw equation-definition strings; free-variable
extraction and the unsafe-expression denylist operate at the string level.
-/

/-- Byte-wise prefix test on character lists. -/
def isPrefixCL : List Char → List Char → Bool
  | [], _ => true
  | _ :: _, [] => false
  | a :: as, b :: bs => a == b && isPrefixCL as bs

/-- Substring test on character lists. -/
def hasSubstring (sub : List Char) : List Char → Bool
  | [] => isPrefixCL sub []
  | c :: t => isPrefixCL sub (c :: t) || hasSubstring sub t

/-- Modelled from the spec: the ILLEGAL denylist (§4.1, §7
Unsafe-Expression) — import-like tokens, attribute traversal into language
internals, statement separators and dynamic-execution tokens.  The spec
notes the exact upstream list is not fully enumerated; this is the
conservative reconstruction it asks for. -/
def ILLEGAL : List String :=
  ["import", "os.", "sys.", ".__", "__.", "eval", "exec", "lambda", ";"]

/-- An equation-definition string is rejected at parse time when it
contains a denylisted construct (spec §4.1). -/
def isIllegalExpr (s : String) : Bool :=
  ILLEGAL.any (fun p => hasSubstring p.toList s.toList)

/-- Characters an identifier token may contain inside an expression string
(letters, digits, underscore, and the dot of `np.<function>` tokens). -/
def isIdentChar (c : Char) : Bool := c.isAlphanum || c == '_' || c == '.'

/-- Identifier characters inside a configuration-file expression, where a
dotted library reference `a::b::c` is one token (spec §6 reference
syntax). -/
def isConfigIdentChar (c : Char) : Bool := isIdentChar c || c == ':'

/-- Scan the maximal identifier-character runs of a string; each token is
paired with a flag recording whether it is immediately followed by `=`
(a keyword argument inside a recognized call). -/
def scanIdents (p : Char → Bool) : List Char → List Char → List (String × Bool)
  | cur, [] => if cur.isEmpty then [] else [(String.mk cur.reverse, false)]
  | cur, c :: rest =>
    if p c then scanIdents p (c :: cur) rest
    else
      if cur.isEmpty then scanIdents p [] rest
      else (String.mk cur.reverse, c == '=') :: scanIdents p [] rest

/-- A numeric-literal token: digits and a decimal point only. -/
def isNumTok (t : String) : Bool :=
  t.toList.all (fun c => c.isDigit || c == '.') && t.toList.any (fun c => c.isDigit)

/-- A recognized numeric-function token: literal prefix `np.`
(spec §4.1, §6). -/
def isNpTok (t : String) : Bool :=
  match t.toList with
  | 'n' :: 'p' :: '.' :: _ => true
  | _ => false

/-- Modelled from the spec: free-variable extraction (§4.1) — every
identifier token that is not a numeric literal, not a recognized
numeric-function token, and not the name of a keyword argument, in order of
first occurrence. -/
def parseVariablesOf (s : String) : List String :=
  (((scanIdents isIdentChar [] s.toList).filter
      (fun tb => !(isNumTok tb.1) && !(isNpTok tb.1) && !tb.2)).map Prod.fst).dedup

/-! ## The array-expression grammar with recognized calls (spec §4.1, §6)

`NpExpr` is the grammar actually accepted for library equation strings:
arithmetic plus calls into the fixed `np.<function>` namespace, whose
arguments are expressions and may include keyword arguments. -/

inductive NpExpr where
  | num : ℚ → NpExpr
  | var : String → NpExpr
  | binop : String → NpExpr → NpExpr → NpExpr
  | call : String → List NpExpr → List (String × NpExpr) → NpExpr

/-- The recognized numeric-function call tokens (spec §6). -/
def NP_FUNS : List String :=
  ["np.exp", "np.log", "np.array", "np.interp", "np.where", "np.nansum",
   "np.sum", "np.max", "np.full"]

mutual

/-- Identifier leaves of a grammar tree: the free variables.  Keyword
argument names are not identifier leaves, so they are never classified as
variables. -/
def NpExpr.identifiers : NpExpr → List String
  | .num _ => []
  | .var v => [v]
  | .binop _ a b => a.identifiers ++ b.identifiers
  | .call _ args kwargs => identsOfList args ++ identsOfKw kwargs

/-- Identifier leaves of a positional-argument list. -/
def identsOfList : List NpExpr → List String
  | [] => []
  | e :: es => e.identifiers ++ identsOfList es

/-- Identifier leaves of a keyword-argument list (the values only). -/
def identsOfKw : List (String × NpExpr) → List String
  | [] => []
  | (_, e) :: es => e.identifiers ++ identsOfKw es

end

mutual

/-- Every call node of a grammar tree uses a recognized `np.<function>`
token (spec §4.1: no other function calls are permitted). -/
def NpExpr.callsRecognized : NpExpr → Bool
  | .num _ => true
  | .var _ => true
  | .binop _ a b => a.callsRecognized && b.callsRecognized
  | .call fn args kwargs =>
    NP_FUNS.contains fn && callsRecognizedList args && callsRecognizedKw kwargs

/-- `callsRecognized` over a positional-argument list. -/
def callsRecognizedList : List NpExpr → Bool
  | [] => true
  | e :: es => e.callsRecognized && callsRecognizedList es

/-- `callsRecognized` over a keyword-argument list. -/
def callsRecognizedKw : List (String × NpExpr) → Bool
  | [] => true
  | (_, e) :: es => e.callsRecognized && callsRecognizedKw es

end

mutual

/-- Render a grammar tree back to its source text (numerals: the
development only renders the non-negative integer literals used by the
claims). -/
def NpExpr.render : NpExpr → String
  | .num q => if q.den = 1 ∧ 0 ≤ q.num then q.num.toNat.repr else "?"
  | .var v => v
  | .binop op a b => a.render ++ " " ++ op ++ " " ++ b.render
  | .call fn args kwargs =>
    fn ++ "(" ++ String.intercalate ", " (renderArgs args ++ renderKw kwargs) ++ ")"

/-- Render a positional-argument list. -/
def renderArgs : List NpExpr → List String
  | [] => []
  | e :: es => e.render :: renderArgs es

/-- Render a keyword-argument list as `name=value`. -/
def renderKw : List (String × NpExpr) → List String
  | [] => []
  | (k, e) :: es => (k ++ "=" ++ e.render) :: renderKw es

end

/-! ## Configuration reference resolution (spec §4.6, §7)

A configuration expression combines numeric literals, other top-level
names, dotted library references and bare variable names.  Dotted
references must resolve to a library/config member (else
Unresolved-Reference, naming the failing path); a bare name that is neither
a numeric literal nor a top-level member is a variable to be supplied by
the caller (the example configurations use `capex_multi` this way, and it
appears in `required_inputs`). -/

/-- How one identifier token of a configuration expression resolves. -/
inductive TokenRes where
  | member : TokenRes
  | libraryRef : TokenRes
  | inputVar : TokenRes
  | constant : TokenRes
deriving DecidableEq

/-- Modelled from the spec: resolve one token of a configuration
expression (§4.6 construction, §7 Unresolved-Reference).  A numeric literal
stands for itself; a top-level name resolves to that member; a
`::`-delimited path must resolve in the equation library, else construction
fails with an Unresolved-Reference error naming the offending path; any
other bare identifier is classified as a required input variable
(spec §4.1 free-variable extraction). -/
def resolveToken (configKeys libKeys : List String) (tok : String) :
    Except EngineError TokenRes :=
  if isNumTok tok then .ok .constant
  else if configKeys.contains tok then .ok .member
  else if hasSubstring [':', ':'] tok.toList then
    if libKeys.contains tok then .ok .libraryRef
    else .error (.unresolvedReference tok)
  else .ok .inputVar

/-- Resolve every identifier token of a configuration expression, failing
on the first unresolvable dotted reference. -/
def resolveTokens (configKeys libKeys : List String) :
    List String → Except EngineError (List TokenRes)
  | [] => .ok []
  | t :: ts =>
    match resolveToken configKeys libKeys t with
    | .error e => .error e
    | .ok r =>
      match resolveTokens configKeys libKeys ts with
      | .error e => .error e
      | .ok rs => .ok (r :: rs)

/-- The identifier tokens of a configuration expression (dotted paths are
single tokens). -/
def parseConfigTokens (s : String) : List String :=
  ((scanIdents isConfigIdentChar [] s.toList).filter
      (fun tb => !(isNumTok tb.1) && !(isNpTok tb.1) && !tb.2)).map Prod.fst

/-- Top-level keys of `src/tests/data/test_configs/test_config_good_6.yaml`
(in file order).  Note the file uses the bare name `test` (in
`procurement_cont`) without defining it. -/
def goodSixKeys : List String :=
  ["fixed_charge_rate", "development_factor", "proj_mgmt_factor",
   "construction_insurance", "project_completion", "decomissioning",
   "procurement_contingency", "install_contingency", "lease_price",
   "confin_factor", "interest_during_construction", "tax_rate",
   "turbine", "turbine_install", "substructure", "foundation", "sub_install",
   "pslt", "array", "export", "grid",
   "support", "install", "electrical", "subcomponents",
   "random_losses", "development", "proj_mgmt", "bos",
   "constr_ins", "decomm", "proj_comp", "procurement_cont", "install_cont",
   "tmp", "factor", "cons_financing", "soft",
   "test1", "test2", "test3", "test4", "test5", "test6", "total"]

/-- Top-level keys of `src/tests/data/test_configs/test_config_bad_2.yaml`
(in file order).  This file defines `test` but addresses the config member
`capex_agg` with dotted paths (`capex_agg::install`,
`capex_agg::subcomponents`) inside expressions. -/
def badTwoKeys : List String :=
  ["fixed_charge_rate", "development_factor", "proj_mgmt_factor",
   "construction_insurance", "project_completion", "decomissioning",
   "procurement_contingency", "install_contingency", "lease_price",
   "confin_factor", "interest_during_construction", "tax_rate",
   "turbine", "turbine_install", "substructure", "foundation", "sub_install",
   "pslt", "array", "export", "grid", "capex_agg",
   "random_losses", "development", "proj_mgmt", "bos",
   "constr_ins", "decomm", "test", "procurement_cont", "install_cont",
   "tmp", "factor", "cons_financing", "soft", "total"]

/-- Modelled from the spec: the dotted `osw_2015` library paths referenced
by the two fixtures, available in the bundled equation library (the library
files themselves are not under `src/`; the paths are taken from the
fixtures' own reference strings). -/
def oswLibPaths : List String :=
  ["osw_2015::turbine::monopile_tower", "osw_2015::turbine::rna",
   "osw_2015::turbine_install::monopile_6MW",
   "osw_2015::monopile::transition_piece", "osw_2015::fixed::outfitting_lt_8MW",
   "osw_2015::monopile::foundation", "osw_2015::monopile::install_6MW",
   "osw_2015::monopile::pslt_6MW", "osw_2015::array::fixed",
   "osw_2015::export::fixed", "osw_2015::grid::grid_connection",
   "osw_2015::losses::technical_fixed"]

/-- `procurement_cont` of `test_config_good_6.yaml` (lines 76-77): uses the
bare name `test`, which the file never defines. -/
def goodSixProcurementCont : String := "procurement_contingency * test"

/-- `decomm` of `test_config_bad_2.yaml` (lines 66-67): addresses the
config member `capex_agg` with a dotted path. -/
def badTwoDecomm : String := "decomissioning * (capex_agg::install - pslt)"

/-! ## The hydrogen production-curve equation file (data)

The seven expression strings of
`src/NRWAL/analysis_library/hydrogen/production_curve.yaml`, transcribed
verbatim. -/

def productionCurveExprs : List String :=
  ["np.array([0.00, 0.03, 0.05, 0.10, 0.15, 0.20, 0.25, 1.00])",
   "np.array([0, 0, 12.12121212, 20.28397566, 20.92050209, 20.92050209, 20.28397566, 17.27115717])",
   "np.interp(resource_capacity_factor_profile, normal_capacity, hydrogen_curve_kg_per_mwh)",
   "hydrogen_production_kg_per_mwh * resource_capacity_profile_mw",
   "np.max(hydrogen_curve_kg_per_mwh) * electrolyzer_size_mw",
   "np.where(hourly_hydrogen_kg < hourly_hydrogen_max_kg, hourly_hydrogen_kg, hourly_hydrogen_max_kg)",
   "np.nansum(hydrogen_kg, axis=0)"]

/-- The `hydrogen_annual_kg` expression string (production_curve.yaml,
lines 13-14). -/
def hydrogenAnnualKgStr : String := "np.nansum(hydrogen_kg, axis=0)"

/-- The `hydrogen_production_kg_per_mwh` expression string
(production_curve.yaml, lines 5-6). -/
def hydrogenProductionStr : String :=
  "np.interp(resource_capacity_factor_profile, normal_capacity, hydrogen_curve_kg_per_mwh)"

/-- Grammar tree of `hydrogen_annual_kg`: a recognized `np.nansum` call
with one positional argument and the keyword argument `axis=0`. -/
def hydrogenAnnualKgAst : NpExpr :=
  .call "np.nansum" [.var "hydrogen_kg"] [("axis", .num 0)]

/-- Grammar tree of `hydrogen_production_kg_per_mwh`: the three-argument
`np.interp` call. -/
def hydrogenProductionAst : NpExpr :=
  .call "np.interp"
    [.var "resource_capacity_factor_profile", .var "normal_capacity",
     .var "hydrogen_curve_kg_per_mwh"] []

/-! ## Theorems -/

/-- Claim C6: for the monopile 15MW 2028 default configuration, the
`required_inputs` property — the sorted union, over every top-level
member's dependency closure, of variable names with no default that are not
produced by another top-level member — equals exactly the thirteen-name
sorted list shown by the example notebook. -/
theorem monopile_required_inputs :
    requiredInputsOf monopile15MW2028Members =
      ["aeff", "capex_multi", "depth", "dist_l_to_ts", "dist_op_to_s",
       "dist_p_to_s", "dist_s_to_l", "fixed_downtime", "gcf", "hs_average",
       "num_turbines", "transmission_multi", "turbine_capacity"] := by
  rfl

/-- Claim C10: every expression of the bundled hydrogen production-curve file
passes the unsafe-expression check; the grammar accepts the keyword
argument `axis=0` inside the recognized `np.nansum` call and the
three-argument `np.interp` call (the rendered grammar trees reproduce the
source strings verbatim); and the keyword name `axis` is not classified as
a variable — `hydrogen_annual_kg` has exactly the free variable
`hydrogen_kg` and `hydrogen_production_kg_per_mwh` exactly its three array
arguments. -/
theorem production_curve_parses :
    productionCurveExprs.all (fun s => !(isIllegalExpr s)) = true
    ∧ NpExpr.render hydrogenAnnualKgAst = hydrogenAnnualKgStr
    ∧ NpExpr.render hydrogenProductionAst = hydrogenProductionStr
    ∧ NpExpr.callsRecognized hydrogenAnnualKgAst = true
    ∧ NpExpr.callsRecognized hydrogenProductionAst = true
    ∧ NpExpr.identifiers hydrogenAnnualKgAst = ["hydrogen_kg"]
    ∧ parseVariablesOf hydrogenAnnualKgStr = ["hydrogen_kg"]
    ∧ "axis" ∉ parseVariablesOf hydrogenAnnualKgStr
    ∧ parseVariablesOf hydrogenProductionStr =
        ["resource_capacity_factor_profile", "normal_capacity",
         "hydrogen_curve_kg_per_mwh"] := by
  refine ⟨rfl, rfl, rfl, rfl, rfl, rfl, rfl, ?_, rfl⟩
  decide

/-- Claim C8, counterexample: the only fixture that uses the name `test` without
ever defining it is `test_config_good_6.yaml`, and resolving its
`procurement_cont` expression does not fail: `procurement_contingency`
resolves to the config member and the bare name `test` is classified as a
required input variable, exactly as the used-but-undefined `capex_multi` of
the monopile configuration appears in `required_inputs`.  No
Unresolved-Reference error naming `test` is raised. -/
theorem good6_test_is_input_var :
    resolveTokens goodSixKeys oswLibPaths (parseConfigTokens goodSixProcurementCont) =
      .ok [.member, .inputVar]
    ∧ resolveTokens goodSixKeys oswLibPaths (parseConfigTokens goodSixProcurementCont) ≠
      .error (.unresolvedReference "test")
    ∧ "capex_multi" ∈ requiredInputsOf monopile15MW2028Members := by
  refine ⟨rfl, ?_, ?_⟩ <;> decide

/-- Claim C8, amended: an Unresolved-Reference failure does arise in the
malformed fixture `test_config_bad_2.yaml`, but it names the dotted path
`capex_agg::install` (which addresses a config member as if it were a
library namespace), not `test`; `test` is defined there, and a bare
undefined name is classified as a required input rather than an error. -/
theorem bad2_unresolved_reference :
    resolveTokens badTwoKeys oswLibPaths (parseConfigTokens badTwoDecomm) =
      .error (.unresolvedReference "capex_agg::install")
    ∧ "test" ∈ badTwoKeys := by
  exact ⟨rfl, by decide⟩

/-! ### List helper lemmas -/

theorem mem_insertStr {a s : String} {l : List String} :
    a ∈ insertStr s l ↔ a = s ∨ a ∈ l := by
  induction l with
  | nil => simp [insertStr]
  | cons t ts ih =>
    simp only [insertStr]
    split
    · simp
    · simp only [List.mem_cons, ih]
      tauto

theorem mem_sortStrings {a : String} {l : List String} :
    a ∈ sortStrings l ↔ a ∈ l := by
  induction l with
  | nil => simp [sortStrings]
  | cons s ss ih => simp [sortStrings, mem_insertStr, ih]

theorem lookup_map_snd (l : List (String × Equation)) (f : Equation → Equation)
    (n : String) :
    (l.map (fun m => (m.1, f m.2))).lookup n = (l.lookup n).map f := by
  induction l with
  | nil => rfl
  | cons a t ih =>
    simp only [List.map_cons, List.lookup]
    split <;> simp [ih]

/-- Claim C9: whenever at least one variable of an Equation is unresolved in the
merged input/default namespace, evaluation fails with a MissingInput error
whose message names every missing variable at once (the full list, not just
the first), and the call produces no cached output (the equation, including
its memoization cell, is returned unchanged). -/
theorem missing_input_names_all (e : Equation) (x : Env)
    (h : e.missingVars x ≠ []) :
    e.evaluateS x = (.error (.missingInput (e.missingVars x)), e)
    ∧ (∀ v, v ∈ e.missingVars x ↔ (v ∈ e.expr.vars ∧ e.resolveVar x v = none))
    ∧ (e.evaluateS x).2.output = e.output := by
  have hev : e.evaluate x = .error (.missingInput (e.missingVars x)) := by
    unfold Equation.evaluate
    cases hm : e.missingVars x with
    | nil => exact absurd hm h
    | cons a as => simp
  have hs : e.evaluateS x = (.error (.missingInput (e.missingVars x)), e) := by
    unfold Equation.evaluateS
    rw [hev]
  refine ⟨hs, fun v => ?_, by rw [hs]⟩
  unfold Equation.missingVars
  rw [List.mem_filter, mem_sortStrings, List.mem_dedup]
  simp [Option.isNone_iff_eq_none]

/-- Concrete equation for the C9 witness: `depth + num_turbines`, no
defaults. -/
def eqnC9 : Equation := { expr := .add (.var "depth") (.var "num_turbines"),
                          default_variables := [], output := none }

/-- Witness for C9 at a concrete input: with an empty input namespace both
variables are missing and the error names both. -/
theorem missing_input_names_all_witness :
    eqnC9.missingVars [] ≠ []
    ∧ eqnC9.evaluateS [] =
        (.error (.missingInput ["depth", "num_turbines"]), eqnC9) := by
  refine ⟨by decide, ?_⟩
  have h := missing_input_names_all eqnC9 [] (by decide)
  exact h.1.trans (by rfl)

/-! ### C7: reset semantics -/

theorem computeMember_reset (e : Equation) (x : Env) :
    (NrwalConfig.computeMember e x).reset = e.reset := by
  unfold NrwalConfig.computeMember Equation.evaluateS
  cases ho : e.output with
  | some q => rfl
  | none =>
    cases he : e.evaluate x with
    | ok q => simp [Equation.reset]
    | error err => simp [Equation.reset]

/-- Claim C7: calling reset_output() after evaluate() restores the unevaluated state:
the whole config equals the reset of the never-evaluated config, a bracket
read of any member returns the live Equation object (never a cached
value), every cached result reachable from the config is cleared, and
re-assigning inputs and re-calling `evaluate()` computes exactly what a
fresh evaluation would. -/
theorem reset_output_restores (c : NrwalConfig) (name : String) (e : Equation)
    (h : c.members.lookup name = some e) :
    c.evaluate.reset_output = c.reset_output
    ∧ c.evaluate.reset_output.members.lookup name = some e.reset
    ∧ e.reset.output = none
    ∧ c.evaluate.reset_output.bracket name = some (.eqn e.reset)
    ∧ (∀ n e', c.evaluate.reset_output.members.lookup n = some e' →
        e'.output = none)
    ∧ (∀ x', ((c.evaluate.reset_output).setInputs x').evaluate =
        ((c.reset_output).setInputs x').evaluate) := by
  have hkey : c.evaluate.reset_output = c.reset_output := by
    unfold NrwalConfig.evaluate NrwalConfig.reset_output
    simp only [List.map_map, Function.comp_def, computeMember_reset]
  have hlook : c.reset_output.members.lookup name = some e.reset := by
    unfold NrwalConfig.reset_output
    simp only []
    rw [lookup_map_snd c.members Equation.reset name, h, Option.map_some']
  refine ⟨hkey, by rw [hkey]; exact hlook, rfl, ?_, ?_, fun x' => by rw [hkey]⟩
  · rw [hkey]
    unfold NrwalConfig.bracket
    rw [hlook]
    rfl
  · intro n e' he'
    rw [hkey] at he'
    unfold NrwalConfig.reset_output at he'
    simp only [] at he'
    rw [lookup_map_snd c.members Equation.reset n] at he'
    cases hl : c.members.lookup n with
    | none => rw [hl] at he'; simp at he'
    | some e0 =>
      rw [hl] at he'
      simp only [Option.map_some'] at he'
      cases he'
      rfl

/-- The Equation of the C7 witness config. -/
def eqnC7 : Equation :=
  { expr := .var "depth", default_variables := [], output := none }

/-- Concrete config for the C7 witness: a single `substructure` member and
an assigned input namespace. -/
def cfgC7 : NrwalConfig :=
  { members := [("substructure", eqnC7)], inputs := [("depth", 6)] }

/-- Witness for C7 at a concrete input: evaluating caches
`substructure = 6` (a bracket read returns the cached value); after
`reset_output()` the bracket read returns the live Equation again. -/
theorem reset_output_restores_witness :
    cfgC7.members.lookup "substructure" = some eqnC7
    ∧ cfgC7.evaluate.bracket "substructure" = some (.value 6)
    ∧ cfgC7.evaluate.reset_output.bracket "substructure" =
        some (.eqn eqnC7.reset) := by
  refine ⟨rfl, by rfl, ?_⟩
  have h := reset_output_restores cfgC7 "substructure" eqnC7 rfl
  exact h.2.2.2.1

/-! ### C5: composite-equation algebra -/

theorem lookup_append_some {A : Env} (B : Env) {v : String} {q : ℚ}
    (h : A.lookup v = some q) : (A ++ B).lookup v = some q := by
  induction A with
  | nil => simp [List.lookup] at h
  | cons a t ih =>
    obtain ⟨k, b⟩ := a
    rw [List.cons_append]
    rw [List.lookup] at h ⊢
    cases hv : (v == k) with
    | true => rw [hv] at h; exact h
    | false => rw [hv] at h; exact ih h

theorem lookup_append_none {A : Env} (B : Env) {v : String}
    (h : A.lookup v = none) : (A ++ B).lookup v = B.lookup v := by
  induction A with
  | nil => rfl
  | cons a t ih =>
    obtain ⟨k, b⟩ := a
    rw [List.cons_append]
    rw [List.lookup] at h ⊢
    cases hv : (v == k) with
    | true => rw [hv] at h; exact absurd h (by simp)
    | false => rw [hv] at h; exact ih h

/-- Evaluation only looks at the environment on the expression's free
identifiers. -/
theorem evalQ_congr : ∀ (e : Expr) {env1 env2 : String → ℚ},
    (∀ v ∈ e.vars, env1 v = env2 v) → e.evalQ env1 = e.evalQ env2
  | .num _, _, _, _ => rfl
  | .var v, _, _, h => h v (by simp [Expr.vars])
  | .add a b, _, _, h => by
    have ha := evalQ_congr a (fun v hv => h v (by
      simp only [Expr.vars, List.mem_append]; exact Or.inl hv))
    have hb := evalQ_congr b (fun v hv => h v (by
      simp only [Expr.vars, List.mem_append]; exact Or.inr hv))
    simp only [Expr.evalQ, ha, hb]
  | .sub a b, _, _, h => by
    have ha := evalQ_congr a (fun v hv => h v (by
      simp only [Expr.vars, List.mem_append]; exact Or.inl hv))
    have hb := evalQ_congr b (fun v hv => h v (by
      simp only [Expr.vars, List.mem_append]; exact Or.inr hv))
    simp only [Expr.evalQ, ha, hb]
  | .mul a b, _, _, h => by
    have ha := evalQ_congr a (fun v hv => h v (by
      simp only [Expr.vars, List.mem_append]; exact Or.inl hv))
    have hb := evalQ_congr b (fun v hv => h v (by
      simp only [Expr.vars, List.mem_append]; exact Or.inr hv))
    simp only [Expr.evalQ, ha, hb]
  | .div a b, _, _, h => by
    have ha := evalQ_congr a (fun v hv => h v (by
      simp only [Expr.vars, List.mem_append]; exact Or.inl hv))
    have hb := evalQ_congr b (fun v hv => h v (by
      simp only [Expr.vars, List.mem_append]; exact Or.inr hv))
    simp only [Expr.evalQ, ha, hb]
  | .pow a b, _, _, h => by
    have ha := evalQ_congr a (fun v hv => h v (by
      simp only [Expr.vars, List.mem_append]; exact Or.inl hv))
    have hb := evalQ_congr b (fun v hv => h v (by
      simp only [Expr.vars, List.mem_append]; exact Or.inr hv))
    simp only [Expr.evalQ, ha, hb]
  | .neg a, _, _, h => by
    have ha := evalQ_congr a (fun v hv => h v (by simpa [Expr.vars] using hv))
    simp only [Expr.evalQ, ha]

/-- If no variable is missing, every free identifier resolves in the merged
namespace. -/
theorem resolveVar_isSome {e : Equation} {x : Env}
    (h : e.missingVars x = []) {v : String} (hv : v ∈ e.expr.vars) :
    (e.resolveVar x v).isSome := by
  unfold Equation.missingVars at h
  rw [List.filter_eq_nil_iff] at h
  have hne := h v (by rw [mem_sortStrings, List.mem_dedup]; exact hv)
  cases ho : (e.resolveVar x v) with
  | some q => rfl
  | none => exact absurd (by rw [ho]; rfl) hne

/-- Every free identifier of either operand resolves in the composite's
merged namespace. -/
theorem compose_resolveVar_isSome (f : Expr → Expr → Expr) {A B : Equation}
    {x : Env} (hA : A.missingVars x = []) (hB : B.missingVars x = [])
    {v : String} (hv : v ∈ A.expr.vars ∨ v ∈ B.expr.vars) :
    ((Equation.compose f A B).resolveVar x v).isSome := by
  unfold Equation.resolveVar
  cases hx : x.lookup v with
  | some q => rfl
  | none =>
    simp only [Equation.compose]
    rcases hv with hv | hv
    · cases hd : A.default_variables.lookup v with
      | some q => rw [lookup_append_some _ hd]; rfl
      | none =>
        have hs := resolveVar_isSome hA hv
        unfold Equation.resolveVar at hs
        rw [hx, hd] at hs
        exact absurd hs (by simp)
    · cases hd : B.default_variables.lookup v with
      | some q =>
        cases hd' : A.default_variables.lookup v with
        | some p => rw [lookup_append_some _ hd']; rfl
        | none => rw [lookup_append_none _ hd', hd]; rfl
      | none =>
        have hs := resolveVar_isSome hB hv
        unfold Equation.resolveVar at hs
        rw [hx, hd] at hs
        exact absurd hs (by simp)

/-- On the first operand's free identifiers the composite's environment
agrees with the first operand's own environment. -/
theorem compose_env_left (f : Expr → Expr → Expr) {A B : Equation} {x : Env}
    (hA : A.missingVars x = []) {v : String} (hv : v ∈ A.expr.vars) :
    (Equation.compose f A B).env x v = A.env x v := by
  unfold Equation.env Equation.resolveVar
  cases hx : x.lookup v with
  | some q => rfl
  | none =>
    simp only [Equation.compose]
    cases hd : A.default_variables.lookup v with
    | some q => rw [lookup_append_some _ hd]
    | none =>
      have hs := resolveVar_isSome hA hv
      unfold Equation.resolveVar at hs
      rw [hx, hd] at hs
      exact absurd hs (by simp)

/-- On the second operand's free identifiers the composite's environment
agrees with the second operand's own environment, provided colliding
default values agree (the spec calls differing collisions a configuration
error). -/
theorem compose_env_right (f : Expr → Expr → Expr) {A B : Equation} {x : Env}
    (hcompat : ∀ v p q, A.default_variables.lookup v = some p →
      B.default_variables.lookup v = some q → p = q)
    (hB : B.missingVars x = []) {v : String} (hv : v ∈ B.expr.vars) :
    (Equation.compose f A B).env x v = B.env x v := by
  unfold Equation.env Equation.resolveVar
  cases hx : x.lookup v with
  | some q => rfl
  | none =>
    simp only [Equation.compose]
    cases hd : B.default_variables.lookup v with
    | some q =>
      cases hd' : A.default_variables.lookup v with
      | some p => rw [lookup_append_some _ hd', hcompat v p q hd' hd]
      | none => rw [lookup_append_none _ hd', hd]
    | none =>
      have hs := resolveVar_isSome hB hv
      unfold Equation.resolveVar at hs
      rw [hx, hd] at hs
      exact absurd hs (by simp)

/-- Generic evaluation homomorphism for a binary composition whose
expression constructor evaluates pointwise. -/
theorem compose_evaluate (f : Expr → Expr → Expr) (g : ℚ → ℚ → ℚ)
    (hf : ∀ (env : String → ℚ) (a b : Expr),
      (f a b).evalQ env = g (a.evalQ env) (b.evalQ env))
    (hfv : ∀ a b : Expr, (f a b).vars = a.vars ++ b.vars)
    {A B : Equation} {x : Env}
    (hcompat : ∀ v p q, A.default_variables.lookup v = some p →
      B.default_variables.lookup v = some q → p = q)
    (hA : A.missingVars x = []) (hB : B.missingVars x = []) :
    (Equation.compose f A B).evaluate x =
      .ok (g (A.expr.evalQ (A.env x)) (B.expr.evalQ (B.env x))) := by
  have hm : (Equation.compose f A B).missingVars x = [] := by
    unfold Equation.missingVars
    rw [List.filter_eq_nil_iff]
    intro v hv
    rw [mem_sortStrings, List.mem_dedup] at hv
    have hv' : v ∈ A.expr.vars ∨ v ∈ B.expr.vars := by
      have hmem : v ∈ (f A.expr B.expr).vars := hv
      rw [hfv] at hmem
      exact List.mem_append.mp hmem
    have hs := compose_resolveVar_isSome f hA hB hv'
    simp [Option.isNone_iff_eq_none, Option.isSome_iff_exists] at hs ⊢
    obtain ⟨q, hq⟩ := hs
    simp [hq]
  unfold Equation.evaluate
  rw [hm]
  have hL : Expr.evalQ ((Equation.compose f A B).env x) A.expr =
      Expr.evalQ (A.env x) A.expr :=
    evalQ_congr A.expr (fun v hv => compose_env_left f hA hv)
  have hR : Expr.evalQ ((Equation.compose f A B).env x) B.expr =
      Expr.evalQ (B.env x) B.expr :=
    evalQ_congr B.expr (fun v hv => compose_env_right f hcompat hB hv)
  have hexpr : (Equation.compose f A B).expr = f A.expr B.expr := rfl
  rw [hexpr, hf, hL, hR]

/-- Claim C5, amended: for Equations `A`, `B` and any namespace `x` resolving
every required variable of both (with colliding default values agreeing,
which the spec requires), the composites built by `+ - * /` and unary `-`
evaluate to the pointwise combination of the operands' results; the
composite default-variable table is the (first-operand-biased) union of the
operands' tables; and the composite required-variable set is the free
variables of the combined expression minus the merged default names. -/
theorem equation_arithmetic_homomorphism (A B : Equation) (x : Env)
    (hcompat : ∀ v p q, A.default_variables.lookup v = some p →
      B.default_variables.lookup v = some q → p = q)
    (hA : A.missingVars x = []) (hB : B.missingVars x = []) :
    ∃ a b, A.evaluate x = .ok a ∧ B.evaluate x = .ok b
    ∧ (A.addE B).evaluate x = .ok (a + b)
    ∧ (A.subE B).evaluate x = .ok (a - b)
    ∧ (A.mulE B).evaluate x = .ok (a * b)
    ∧ (A.divE B).evaluate x = .ok (a / b)
    ∧ A.negE.evaluate x = .ok (-a)
    ∧ (A.addE B).default_variables =
        A.default_variables ++ B.default_variables
    ∧ (A.addE B).requiredVariables =
        sortStrings (((A.expr.vars ++ B.expr.vars).dedup).filter
          (fun v =>
            ((A.default_variables ++ B.default_variables).lookup v).isNone)) := by
  refine ⟨A.expr.evalQ (A.env x), B.expr.evalQ (B.env x), ?_, ?_, ?_, ?_, ?_, ?_, ?_, rfl, rfl⟩
  · unfold Equation.evaluate; rw [hA]
  · unfold Equation.evaluate; rw [hB]
  · exact compose_evaluate .add (· + ·) (fun _ _ _ => rfl) (fun _ _ => rfl)
      hcompat hA hB
  · exact compose_evaluate .sub (· - ·) (fun _ _ _ => rfl) (fun _ _ => rfl)
      hcompat hA hB
  · exact compose_evaluate .mul (· * ·) (fun _ _ _ => rfl) (fun _ _ => rfl)
      hcompat hA hB
  · exact compose_evaluate .div (· / ·) (fun _ _ _ => rfl) (fun _ _ => rfl)
      hcompat hA hB
  · have hmneg : A.negE.missingVars x = [] := hA
    unfold Equation.evaluate
    rw [hmneg]
    rfl

/-- First operand of the C5 counterexample: requires `v`. -/
def eqnCex1 : Equation := { expr := .var "v", default_variables := [], output := none }

/-- Second operand of the C5 counterexample: its default-variable table
supplies `v` (default tables routinely carry names beyond an equation's own
expression — the notebook shows `substructure.default_variables` holding
some thirty unrelated names). -/
def eqnCex2 : Equation :=
  { expr := .var "v", default_variables := [("v", 1)], output := none }

/-- Claim C5, counterexample: the composite's required-variable set is NOT in
general the union of the operands' required-variable sets: here `v` is
required by the first operand (so it is in the union), but the composite's
required set is empty because the second operand's default table supplies
`v`. -/
theorem required_union_counterexample :
    eqnCex1.requiredVariables = ["v"]
    ∧ eqnCex2.requiredVariables = []
    ∧ (eqnCex1.addE eqnCex2).requiredVariables = []
    ∧ "v" ∈ eqnCex1.requiredVariables ++ eqnCex2.requiredVariables
    ∧ "v" ∉ (eqnCex1.addE eqnCex2).requiredVariables := by
  refine ⟨rfl, rfl, rfl, ?_, ?_⟩ <;> decide

/-- First operand for the C5 witness. -/
def eqnWitA : Equation := { expr := .var "p", default_variables := [], output := none }

/-- Second operand for the C5 witness. -/
def eqnWitB : Equation := { expr := .var "q", default_variables := [], output := none }

/-- Input namespace for the C5 witness. -/
def envWit : Env := [("p", 2), ("q", 3)]

/-- Witness for C5 at concrete inputs: both operands evaluate and the sum
composite evaluates to the sum of the results. -/
theorem equation_arithmetic_homomorphism_witness :
    eqnWitA.missingVars envWit = [] ∧ eqnWitB.missingVars envWit = []
    ∧ eqnWitA.evaluate envWit = .ok 2 ∧ eqnWitB.evaluate envWit = .ok 3
    ∧ (eqnWitA.addE eqnWitB).evaluate envWit = .ok (2 + 3) := by
  obtain ⟨a, b, hA, hB, hadd, _⟩ :=
    equation_arithmetic_homomorphism eqnWitA eqnWitB envWit
      (fun v p q hp _ => by simp [eqnWitA, List.lookup] at hp) rfl rfl
  have ha : a = 2 := by
    have h2 : (Except.ok 2 : Except EngineError ℚ) = .ok a := by
      rw [← hA]; rfl
    exact (Except.ok.injEq _ _).mp h2.symm
  have hb : b = 3 := by
    have h3 : (Except.ok 3 : Except EngineError ℚ) = .ok b := by
      rw [← hB]; rfl
    exact (Except.ok.injEq _ _).mp h3.symm
  subst ha hb
  exact ⟨rfl, rfl, hA, hB, hadd⟩

/-! ### C3/C4: interpolation engine lemmas -/

theorem lastKnot_mem : ∀ (l : List (ℚ × Equation)) {k : ℚ × Equation},
    lastKnot l = some k → k ∈ l
  | [], k, h => by simp [lastKnot] at h
  | [a], k, h => by
    have : a = k := by simpa [lastKnot] using h
    simp [this]
  | a :: b :: t, k, h => by
    have h' : lastKnot (b :: t) = some k := h
    exact List.mem_cons_of_mem a (lastKnot_mem (b :: t) h')

theorem lastKnot_cons_some : ∀ (a : ℚ × Equation) (l : List (ℚ × Equation)),
    ∃ k, lastKnot (a :: l) = some k
  | _, [] => ⟨_, rfl⟩
  | _, b :: t => by
    obtain ⟨k, hk⟩ := lastKnot_cons_some b t
    exact ⟨k, hk⟩

theorem lastKnot_append {l₂ : List (ℚ × Equation)} (h : l₂ ≠ []) :
    ∀ (l₁ : List (ℚ × Equation)), lastKnot (l₁ ++ l₂) = lastKnot l₂
  | [] => rfl
  | a :: t => by
    have ht : t ++ l₂ ≠ [] := by
      cases t with
      | nil => simpa using h
      | cons b r => simp
    rw [List.cons_append]
    have step : lastKnot (a :: (t ++ l₂)) = lastKnot (t ++ l₂) := by
      cases hc : t ++ l₂ with
      | nil => exact absurd hc ht
      | cons b r => rfl
    rw [step]
    exact lastKnot_append h t

theorem le_lastKnot : ∀ (l : List (ℚ × Equation)),
    l.Pairwise (fun a b => a.1 < b.1) → ∀ {kN : ℚ × Equation},
    lastKnot l = some kN → ∀ {k : ℚ × Equation}, k ∈ l → k.1 ≤ kN.1
  | [], _, kN, h, _, hk => by simp at hk
  | [a], _, kN, h, k, hk => by
    have h1 : a = kN := by simpa [lastKnot] using h
    have h2 : k = a := by simpa using hk
    rw [h2, h1]
  | a :: b :: t, hp, kN, h, k, hk => by
    have h' : lastKnot (b :: t) = some kN := h
    rcases List.mem_cons.mp hk with hk | hk
    · subst hk
      exact le_of_lt ((List.pairwise_cons.mp hp).1 kN (lastKnot_mem (b :: t) h'))
    · exact le_lastKnot (b :: t) (List.pairwise_cons.mp hp).2 h' hk

theorem head_le_mem {a : ℚ × Equation} {t : List (ℚ × Equation)}
    (hp : (a :: t).Pairwise (fun x y => x.1 < y.1)) {k : ℚ × Equation}
    (hk : k ∈ a :: t) : a.1 ≤ k.1 := by
  rcases List.mem_cons.mp hk with hk | hk
  · rw [hk]
  · exact le_of_lt ((List.pairwise_cons.mp hp).1 k hk)

theorem find?_eq_none_of_ne {l : List (ℚ × Equation)} {r : ℚ}
    (h : ∀ k ∈ l, k.1 ≠ r) :
    l.find? (fun k => decide (k.1 = r)) = none := by
  rw [List.find?_eq_none]
  intro k hk
  simp [h k hk]

theorem find?_sorted_mem : ∀ (l : List (ℚ × Equation)),
    l.Pairwise (fun a b => a.1 < b.1) → ∀ {k : ℚ × Equation}, k ∈ l →
    l.find? (fun p => decide (p.1 = k.1)) = some k
  | [], _, k, hk => by simp at hk
  | a :: t, hp, k, hk => by
    rcases List.mem_cons.mp hk with hk | hk
    · subst hk
      rw [List.find?_cons_of_pos _ (by simp)]
    · have hne : a.1 ≠ k.1 := ne_of_lt ((List.pairwise_cons.mp hp).1 k hk)
      rw [List.find?_cons_of_neg _ (by simp [hne])]
      exact find?_sorted_mem t (List.pairwise_cons.mp hp).2 hk

theorem findBracket_eq : ∀ (pre : List (ℚ × Equation)) {lo hi : ℚ × Equation}
    {post : List (ℚ × Equation)} {r : ℚ},
    (pre ++ lo :: hi :: post).Pairwise (fun a b => a.1 < b.1) →
    lo.1 < r → r < hi.1 →
    findBracket (pre ++ lo :: hi :: post) r = some (lo, hi)
  | [], lo, hi, post, r, hp, h1, h2 => by
    simp only [List.nil_append]
    unfold findBracket
    rw [if_pos ⟨h1, h2⟩]
  | a :: pre, lo, hi, post, r, hp, h1, h2 => by
    cases hpre : pre with
    | nil =>
      subst hpre
      simp only [List.cons_append, List.nil_append]
      unfold findBracket
      rw [if_neg (by rintro ⟨_, hrlo⟩; exact lt_asymm h1 hrlo)]
      have hp0 : (a :: lo :: hi :: post).Pairwise (fun x y => x.1 < y.1) := hp
      exact findBracket_eq [] (List.pairwise_cons.mp hp0).2 h1 h2
    | cons b pre' =>
      subst hpre
      simp only [List.cons_append]
      unfold findBracket
      have hp' := List.pairwise_cons.mp hp
      have hblo : b.1 < lo.1 := by
        have := (List.pairwise_cons.mp hp'.2).1 lo (by
          simp [List.mem_append])
        exact this
      rw [if_neg (by
        rintro ⟨_, hrb⟩
        exact absurd (lt_trans hrb hblo) (lt_asymm h1))]
      exact findBracket_eq (b :: pre') hp'.2 h1 h2

/-- Exact-match branch of family resolution. -/
theorem resolveFamily_found {knots : List (ℚ × Equation)} {r : ℚ} {x : Env}
    {extrap : Bool} {k : ℚ × Equation}
    (h : knots.find? (fun k => decide (k.1 = r)) = some k) :
    resolveFamily knots r extrap x = .ok (.member k.2) := by
  unfold resolveFamily
  rw [h]

/-- No-exact-match branch of family resolution, with the first and last
knots exposed. -/
theorem resolveFamily_notfound {knots : List (ℚ × Equation)} {r : ℚ} {x : Env}
    {extrap : Bool} {kmin kmax : ℚ × Equation}
    (hfind : knots.find? (fun k => decide (k.1 = r)) = none)
    (hf : firstKnot knots = some kmin) (hl : lastKnot knots = some kmax) :
    resolveFamily knots r extrap x =
      if kmin.1 < r ∧ r < kmax.1 then
        match findBracket knots r with
        | some (lo, hi) => (interpTwo lo hi r x).map .value
        | none => .error .noKnots
      else if extrap then
        if r < kmin.1 then extrapBelow knots r x else extrapAbove knots r x
      else .error (.outOfRange r kmin.1 kmax.1) := by
  unfold resolveFamily
  rw [hfind, hf, hl]

/-- Claim C3: for every knot set and every requested token strictly between two
adjacent defined knots, resolution evaluates both knot members against the
active input namespace and returns exactly the linear interpolation
`v_lo + (v_hi - v_lo) * (r - k_lo) / (k_hi - k_lo)`; a requested token
equal to a knot returns that member unchanged; and at knots 6 and 10 the
value requested at 8 is `R6 + 0.5 * (R10 - R6)`. -/
theorem interior_interpolation (pre post : List (ℚ × Equation))
    (lo hi : ℚ × Equation) (r vLo vHi : ℚ) (extrap : Bool) (x : Env)
    (hsort : (pre ++ lo :: hi :: post).Pairwise (fun a b => a.1 < b.1))
    (h1 : lo.1 < r) (h2 : r < hi.1)
    (hLo : lo.2.evaluate x = .ok vLo) (hHi : hi.2.evaluate x = .ok vHi) :
    resolveFamily (pre ++ lo :: hi :: post) r extrap x =
      .ok (.value (interpValue lo.1 vLo hi.1 vHi r))
    ∧ (∀ (ks : List (ℚ × Equation)), ks.Pairwise (fun a b => a.1 < b.1) →
        ∀ k ∈ ks, resolveFamily ks k.1 extrap x = .ok (.member k.2))
    ∧ (∀ R6 R10 : ℚ, interpValue 6 R6 10 R10 8 = R6 + (1/2) * (R10 - R6)) := by
  obtain ⟨hpre, hmid, hcross⟩ := List.pairwise_append.mp hsort
  refine ⟨?_, ?_, ?_⟩
  · have hfind : (pre ++ lo :: hi :: post).find? (fun k => decide (k.1 = r)) = none := by
      apply find?_eq_none_of_ne
      intro k hk
      rcases List.mem_append.mp hk with hk | hk
      · exact ne_of_lt (lt_trans (hcross k hk lo (by simp)) h1)
      · rcases List.mem_cons.mp hk with hk | hk
        · rw [hk]; exact ne_of_lt h1
        · rcases List.mem_cons.mp hk with hk | hk
          · rw [hk]; exact (ne_of_lt h2).symm
          · have hhik : hi.1 < k.1 :=
              (List.pairwise_cons.mp (List.pairwise_cons.mp hmid).2).1 k hk
            exact (ne_of_lt (lt_trans h2 hhik)).symm
    have hfirst : ∃ kmin, firstKnot (pre ++ lo :: hi :: post) = some kmin ∧
        kmin.1 ≤ lo.1 := by
      cases pre with
      | nil => exact ⟨lo, rfl, le_refl _⟩
      | cons a t =>
        exact ⟨a, rfl, le_of_lt (hcross a (by simp) lo (by simp))⟩
    obtain ⟨kmin, hf1, hminle⟩ := hfirst
    have hlast0 : lastKnot (pre ++ lo :: hi :: post) = lastKnot (lo :: hi :: post) :=
      lastKnot_append (by simp) pre
    obtain ⟨kmax, hl0⟩ := lastKnot_cons_some lo (hi :: post)
    have hl1 : lastKnot (pre ++ lo :: hi :: post) = some kmax := hlast0.trans hl0
    have hmaxle : hi.1 ≤ kmax.1 :=
      le_lastKnot (lo :: hi :: post) hmid hl0 (by simp)
    rw [resolveFamily_notfound hfind hf1 hl1,
        if_pos ⟨lt_of_le_of_lt hminle h1, lt_of_lt_of_le h2 hmaxle⟩,
        findBracket_eq pre hsort h1 h2]
    show (interpTwo lo hi r x).map Resolved.value = _
    unfold interpTwo
    rw [hLo, hHi]
    rfl
  · intro ks hks k hk
    exact resolveFamily_found (find?_sorted_mem ks hks hk)
  · intro R6 R10
    unfold interpValue
    ring

/-- Claim C4: for a knot set with at least two knots and a requested token outside
the closed knot range, resolution consults the flag selected by the family
kind (`interp_extrap_power` for size-keyed families, `interp_extrap_year`
for year-keyed ones): when that flag is false the resolution fails with an
out-of-range error naming the requested value and the available knot range;
when it is true the resolution returns the linear extrapolation computed
from the nearest two knots with the same formula. -/
theorem out_of_range_extrapolation (kind : FamilyKind)
    (interp_extrap_power interp_extrap_year : Bool)
    (knots rest : List (ℚ × Equation)) (k0 k1 kN m0 m1 : ℚ × Equation)
    (r v0 v1 w0 w1 : ℚ) (x : Env)
    (hsort : knots.Pairwise (fun a b => a.1 < b.1))
    (hk : knots = k0 :: k1 :: rest)
    (hlast : lastKnot knots = some kN)
    (hl2 : lastTwo knots = some (m0, m1))
    (hout : r < k0.1 ∨ kN.1 < r)
    (hv0 : k0.2.evaluate x = .ok v0) (hv1 : k1.2.evaluate x = .ok v1)
    (hw0 : m0.2.evaluate x = .ok w0) (hw1 : m1.2.evaluate x = .ok w1) :
    (flagFor kind interp_extrap_power interp_extrap_year = false →
      resolveFamilyRef kind interp_extrap_power interp_extrap_year knots r x =
        .error (.outOfRange r k0.1 kN.1))
    ∧ (flagFor kind interp_extrap_power interp_extrap_year = true →
        r < k0.1 →
        resolveFamilyRef kind interp_extrap_power interp_extrap_year knots r x =
          .ok (.value (interpValue k0.1 v0 k1.1 v1 r)))
    ∧ (flagFor kind interp_extrap_power interp_extrap_year = true →
        kN.1 < r →
        resolveFamilyRef kind interp_extrap_power interp_extrap_year knots r x =
          .ok (.value (interpValue m0.1 w0 m1.1 w1 r))) := by
  subst hk
  have hfind : (k0 :: k1 :: rest).find? (fun k => decide (k.1 = r)) = none := by
    apply find?_eq_none_of_ne
    intro k hkm
    rcases hout with hout | hout
    · exact (ne_of_lt (lt_of_lt_of_le hout (head_le_mem hsort hkm))).symm
    · exact ne_of_lt (lt_of_le_of_lt (le_lastKnot _ hsort hlast hkm) hout)
  have hf1 : firstKnot (k0 :: k1 :: rest) = some k0 := rfl
  have hcond : ¬(k0.1 < r ∧ r < kN.1) := by
    rcases hout with hout | hout
    · rintro ⟨hc, _⟩; exact lt_asymm hout hc
    · rintro ⟨_, hc⟩; exact lt_asymm hout hc
  have hk0N : k0.1 ≤ kN.1 := le_lastKnot _ hsort hlast (by simp)
  unfold resolveFamilyRef
  rw [resolveFamily_notfound hfind hf1 hlast, if_neg hcond]
  refine ⟨fun hfl => by rw [hfl]; rfl, fun hfl hbelow => ?_, fun hfl habove => ?_⟩
  · rw [hfl, if_pos hbelow]
    show (interpTwo k0 k1 r x).map Resolved.value = _
    unfold interpTwo
    rw [hv0, hv1]
    rfl
  · have hnb : ¬ r < k0.1 := not_lt_of_gt (lt_of_le_of_lt hk0N habove)
    rw [hfl, if_neg hnb]
    show extrapAbove (k0 :: k1 :: rest) r x = _
    unfold extrapAbove
    rw [hl2]
    show (interpTwo m0 m1 r x).map Resolved.value = _
    unfold interpTwo
    rw [hw0, hw1]
    rfl

/-- 6MW knot member for the interpolation witnesses. -/
def eqnK6 : Equation := { expr := .num 100, default_variables := [], output := none }

/-- 10MW knot member for the interpolation witnesses. -/
def eqnK10 : Equation := { expr := .num 200, default_variables := [], output := none }

/-- The size-keyed knot set with knots at 6MW and 10MW. -/
def knots6_10 : List (ℚ × Equation) := [(6, eqnK6), (10, eqnK10)]

/-- Witness for C3 at concrete inputs: with knots at 6 and 10 yielding 100
and 200, the 8MW member resolves to `100 + 0.5 * (200 - 100) = 150`, and
requesting exactly 6 returns the 6MW member unchanged. -/
theorem interior_interpolation_witness :
    (6 : ℚ) < 8 ∧ (8 : ℚ) < 10
    ∧ eqnK6.evaluate [] = .ok 100 ∧ eqnK10.evaluate [] = .ok 200
    ∧ resolveFamily knots6_10 8 false [] = .ok (.value 150)
    ∧ resolveFamily knots6_10 6 false [] = .ok (.member eqnK6) := by
  have hsort : knots6_10.Pairwise (fun a b => a.1 < b.1) := by
    unfold knots6_10
    refine List.pairwise_cons.mpr ⟨?_, List.pairwise_singleton _ _⟩
    intro k hk
    have hk' : k = ((10 : ℚ), eqnK10) := by simpa using hk
    rw [hk']
    norm_num
  have h := interior_interpolation [] [] (6, eqnK6) (10, eqnK10) 8 100 200
    false [] hsort (by norm_num) (by norm_num) rfl rfl
  have hiv : interpValue 6 100 10 200 8 = 150 := by
    unfold interpValue
    norm_num
  refine ⟨by norm_num, by norm_num, rfl, rfl, ?_, ?_⟩
  · have h1 := h.1
    rw [hiv] at h1
    exact h1
  · exact h.2.1 knots6_10 hsort (6, eqnK6) (by unfold knots6_10; simp)

/-- Witness for C4 at concrete inputs: requesting 12MW outside the
[6, 10] knot range fails with an out-of-range error naming 12 and the 6-10
range when the size flag is off, and yields the linear extrapolation 250
from the last two knots when the governing flag (power for a size-keyed
family, year for a year-keyed family) is on. -/
theorem out_of_range_extrapolation_witness :
    lastKnot knots6_10 = some (10, eqnK10)
    ∧ lastTwo knots6_10 = some ((6, eqnK6), (10, eqnK10))
    ∧ (10 : ℚ) < 12
    ∧ resolveFamilyRef .power false false knots6_10 12 [] =
        .error (.outOfRange 12 6 10)
    ∧ resolveFamilyRef .power true false knots6_10 12 [] = .ok (.value 250)
    ∧ resolveFamilyRef .year false true knots6_10 12 [] = .ok (.value 250)
    ∧ resolveFamilyRef .year false false knots6_10 12 [] =
        .error (.outOfRange 12 6 10) := by
  have hsort : knots6_10.Pairwise (fun a b => a.1 < b.1) := by
    unfold knots6_10
    refine List.pairwise_cons.mpr ⟨?_, List.pairwise_singleton _ _⟩
    intro k hk
    have hk' : k = ((10 : ℚ), eqnK10) := by simpa using hk
    rw [hk']
    norm_num
  have hout : (12 : ℚ) < ((6 : ℚ), eqnK6).1 ∨ ((10 : ℚ), eqnK10).1 < 12 :=
    Or.inr (by norm_num)
  have hiv : interpValue 6 100 10 200 12 = 250 := by
    unfold interpValue
    norm_num
  have hp := out_of_range_extrapolation .power false false knots6_10 []
    (6, eqnK6) (10, eqnK10) (10, eqnK10) (6, eqnK6) (10, eqnK10) 12
    100 200 100 200 [] hsort rfl rfl rfl hout rfl rfl rfl rfl
  have hpe := out_of_range_extrapolation .power true false knots6_10 []
    (6, eqnK6) (10, eqnK10) (10, eqnK10) (6, eqnK6) (10, eqnK10) 12
    100 200 100 200 [] hsort rfl rfl rfl hout rfl rfl rfl rfl
  have hye := out_of_range_extrapolation .year false true knots6_10 []
    (6, eqnK6) (10, eqnK10) (10, eqnK10) (6, eqnK6) (10, eqnK10) 12
    100 200 100 200 [] hsort rfl rfl rfl hout rfl rfl rfl rfl
  have hyn := out_of_range_extrapolation .year false false knots6_10 []
    (6, eqnK6) (10, eqnK10) (10, eqnK10) (6, eqnK6) (10, eqnK10) 12
    100 200 100 200 [] hsort rfl rfl rfl hout rfl rfl rfl rfl
  refine ⟨rfl, rfl, by norm_num, hp.1 rfl, ?_, ?_, hyn.1 rfl⟩
  · have h2 := hpe.2.2 rfl (by norm_num)
    rw [hiv] at h2
    exact h2
  · have h2 := hye.2.2 rfl (by norm_num)
    rw [hiv] at h2
    exact h2

end NRWAL
